import Mathlib

/-!
# gallery-popup.js: orbit widget, visibility scaler, scroll arrows, label fitting

Shallow embedding of `static/js/gallery-popup.js`.

Conventions of the embedding:

* JavaScript numbers are exact rationals (`ℚ`); IEEE rounding, `NaN` and the
  infinities are outside the model.  `Math.PI` is the rational value of the
  double constant.
* `null` is `none`.  A `style.fontSize` string is `none` for the empty string
  and `some n` for the string made of `n` followed by `px`; `style.fontWeight` is `none` for
  the empty string and `some w` for the decimal string of `w`.
* A JavaScript string is the list of its UTF-16 code units.
* The closure variables of `initFeatureOrbit` form the record `Orbit`; every
  function of the closure takes the record and returns the updated record.
-/

namespace GalleryPopup

/-! ## Numeric primitives -/

/-- Value of `Math.PI`, the double `0x400921FB54442D18`, as an exact rational. -/
def PI : ℚ := 884279719003555 / 281474976710656

/-- Truncation toward zero, the integer quotient used by the JavaScript remainder. -/
def jsTrunc (x : ℚ) : ℤ := if 0 ≤ x then ⌊x⌋ else ⌈x⌉

/-- JavaScript `a % b` on numbers: the remainder carries the sign of the dividend. -/
def jsRem (a b : ℚ) : ℚ := a - b * (jsTrunc (a / b) : ℚ)

/-- `Math.round`: nearest integer, halves go toward plus infinity. -/
def mathRound (x : ℚ) : ℤ := ⌊x + 1 / 2⌋

/-- `Math.sign`. -/
def mathSign (x : ℚ) : ℚ := if 0 < x then 1 else if x < 0 then -1 else 0

/-- `Number.prototype.toFixed(digits)` read back as a number: the multiple of
`10^(-digits)` closest to `x`, the larger one on a tie. -/
def toFixed (x : ℚ) (digits : ℕ) : ℚ := (⌊x * 10 ^ digits + 1 / 2⌋ : ℚ) / 10 ^ digits

/-! ## Orbit widget: rotation and selection state -/

/-- Inline style of one overlay node (`n.text.style`) with the two bookkeeping
fields `_prevFontSize` and `_prevFontWeight`, where `none` is `undefined`. -/
structure OrbitNode where
  fontSize : Option ℕ
  fontWeight : Option ℕ
  prevFontSize : Option (Option ℕ)
  prevFontWeight : Option (Option ℕ)
  deriving DecidableEq, Repr

/-- Closure variables of `initFeatureOrbit` that drive rotation and selection.
`rotateRemaining = none` is `Infinity`. -/
structure Orbit where
  angleOffset : ℚ
  lastTs : Option ℚ
  selectedIndex : Option ℕ
  rotatingToIndex : Option ℕ
  rotationTargetOffset : Option ℚ
  pauseUntil : Option ℚ
  rotateRemaining : Option ℚ
  rotationCompleted : Bool
  nodes : List OrbitNode
  deriving DecidableEq

/-- Auto-rotate speed in radians per millisecond. -/
def speed : ℚ := 4 / 10000

/-- Speed in radians per millisecond while rotating to a selected item. -/
def rotationToSpeed : ℚ := 25 / 10000

/-- Threshold in radians below which the item counts as arrived. -/
def rotationTolerance : ℚ := 2 / 100

/-- The flag `rotateOnlyOnce`; the script never assigns it after its declaration. -/
def rotateOnlyOnce : Bool := false

/-- A node as `createSVGOverlay` leaves it: fitted font size, no weight, no saved style. -/
def freshNode (fontPx : ℕ) : OrbitNode :=
  { fontSize := some fontPx, fontWeight := none, prevFontSize := none, prevFontWeight := none }

/-- State right after `initFeatureOrbit` has built the overlay. -/
def initOrbit (nodes : List OrbitNode) : Orbit :=
  { angleOffset := 0, lastTs := none, selectedIndex := none, rotatingToIndex := none,
    rotationTargetOffset := none, pauseUntil := none,
    rotateRemaining := if rotateOnlyOnce then some (PI * 2) else none,
    rotationCompleted := false, nodes := nodes }

/-- The function `shortestAngle`. -/
def shortestAngle (a : ℚ) : ℚ := jsRem (a + PI) (PI * 2) - PI

/-- Number read by `parseFloat(fontSize || 16) || 16` in `applySelectedStyle`. -/
def curFontPx (fs : Option ℕ) : ℕ :=
  match fs with
  | none => 16
  | some 0 => 16
  | some n => n

/-- Effect of `applySelectedStyle` on the node it addresses;
`Math.round(cur * 1.35)` on a whole `cur` is `(135 * cur + 50) / 100`. -/
def applyStyleNode (n : OrbitNode) : OrbitNode :=
  { fontSize := some ((135 * curFontPx n.fontSize + 50) / 100),
    fontWeight := some 700,
    prevFontSize := some n.fontSize,
    prevFontWeight := some n.fontWeight }

/-- Effect of `removeSelectedStyle` on the node it addresses. -/
def removeStyleNode (n : OrbitNode) : OrbitNode :=
  { n with
    fontSize := match n.prevFontSize with
      | some p => p
      | none => none
    fontWeight := match n.prevFontWeight with
      | some p => p
      | none => none }

/-- The function `applySelectedStyle`: a null or out-of-range index changes nothing. -/
def applySelectedStyle (nodes : List OrbitNode) (idx : Option ℕ) : List OrbitNode :=
  match idx with
  | none => nodes
  | some i => nodes.modify applyStyleNode i

/-- The function `removeSelectedStyle`: a null or out-of-range index changes nothing. -/
def removeSelectedStyle (nodes : List OrbitNode) (idx : Option ℕ) : List OrbitNode :=
  match idx with
  | none => nodes
  | some i => nodes.modify removeStyleNode i

/-- Target offset that `startRotateToIndex` computes for item `idx` of `count`. -/
def targetOffset (count idx : ℕ) : ℚ :=
  let base := ((idx : ℚ) / (count : ℚ)) * PI * 2
  let targetAngle := 3 * PI / 2
  let desired := targetAngle - base
  let k := mathRound (desired / (PI * 2))
  desired + (k : ℚ) * PI * 2

/-- The function `startRotateToIndex` (pointer press or Enter/Space on item `idx`). -/
def startRotateToIndex (s : Orbit) (idx : ℕ) : Orbit :=
  if s.nodes.length = 0 then s
  else
    let target := targetOffset s.nodes.length idx
    let s1 := { s with rotationTargetOffset := some target, rotatingToIndex := some idx }
    let s2 :=
      if s1.selectedIndex ≠ none ∧ s1.selectedIndex ≠ s1.rotatingToIndex then
        { s1 with nodes := removeSelectedStyle s1.nodes s1.selectedIndex, selectedIndex := none }
      else s1
    { s2 with pauseUntil := none }

/-- Frame interval computed at the top of `animate`; a null or zero `lastTs` is falsy. -/
def frameDt (s : Orbit) (ts : ℚ) : ℚ :=
  match s.lastTs with
  | none => ts - ts
  | some l => if l = 0 then ts - ts else ts - l

/-- Signed delta that `animate` follows while rotating to a selection
(a null target would be coerced to `0`). -/
def rotationDelta (s : Orbit) : ℚ := shortestAngle (s.rotationTargetOffset.getD 0 - s.angleOffset)

/-- The state update of one `animate(ts)` frame (the DOM writes that follow do
not feed back into these variables). -/
def animate (s : Orbit) (ts : ℚ) : Orbit :=
  let dt := frameDt s ts
  let s := { s with lastTs := some ts }
  if s.rotatingToIndex ≠ none then
    let delta := rotationDelta s
    let maxStep := rotationToSpeed * dt
    if |delta| ≤ max rotationTolerance maxStep then
      { s with
        angleOffset := s.rotationTargetOffset.getD 0,
        selectedIndex := s.rotatingToIndex,
        nodes := applySelectedStyle s.nodes s.rotatingToIndex,
        rotatingToIndex := none,
        rotationTargetOffset := none,
        pauseUntil := some (ts + 15000) }
    else
      { s with angleOffset := s.angleOffset + mathSign delta * maxStep }
  else
    let expired : Bool := match s.pauseUntil with
      | some p => decide (p ≤ ts)
      | none => false
    let s :=
      if expired then
        let s :=
          if s.selectedIndex ≠ none then
            { s with nodes := removeSelectedStyle s.nodes s.selectedIndex, selectedIndex := none }
          else s
        { s with pauseUntil := none }
      else s
    if rotateOnlyOnce && !s.rotationCompleted then
      let delta := speed * dt
      let rem := s.rotateRemaining.map (fun r => r - delta)
      let s := { s with angleOffset := s.angleOffset + delta, rotateRemaining := rem }
      match rem with
      | some r => if r ≤ 0 then { s with rotationCompleted := true, rotateRemaining := some 0 } else s
      | none => s
    else if !rotateOnlyOnce then
      let paused : Bool := match s.pauseUntil with
        | some p => decide (ts < p)
        | none => false
      if paused then s else { s with angleOffset := s.angleOffset + speed * dt }
    else s

/-- One user or frame event on the orbit widget. -/
inductive Event where
  | click (idx : ℕ)
  | frame (ts : ℚ)
  deriving DecidableEq

/-- Handler dispatch for one event. -/
def step (s : Orbit) (e : Event) : Orbit :=
  match e with
  | Event.click i => startRotateToIndex s i
  | Event.frame ts => animate s ts

/-- Run a sequence of events in order. -/
def run (s : Orbit) (es : List Event) : Orbit := es.foldl step s

/-- Run a sequence of animation frames with no click in between. -/
def runFrames (s : Orbit) (tss : List ℚ) : Orbit := tss.foldl animate s

/-- The event names only items of the overlay (`dataset.itemIndex` of a node). -/
def Event.valid (count : ℕ) (e : Event) : Prop :=
  match e with
  | Event.click i => i < count
  | Event.frame _ => True

/-- An overlay of two labels, both fitted at 16px. -/
def twoNodes : List OrbitNode := [freshNode 16, freshNode 16]

/-- Record of the rotation state with the once-only fields at their initial value. -/
def orbitState (angle : ℚ) (lastTs : Option ℚ) (sel rot : Option ℕ) (tgt pause : Option ℚ)
    (nodes : List OrbitNode) : Orbit :=
  { angleOffset := angle, lastTs := lastTs, selectedIndex := sel, rotatingToIndex := rot,
    rotationTargetOffset := tgt, pauseUntil := pause, rotateRemaining := none,
    rotationCompleted := false, nodes := nodes }

/-! ## Visibility-driven scaler (`initGalleryPopups`) -/

def scaleMin : ℚ := 86 / 100

def scaleMax : ℚ := 103 / 100

def opacityMin : ℚ := 6 / 10

def opacityMax : ℚ := 1

/-- Values the observer callback computes for one entry. -/
structure Visual where
  scale : ℚ
  opacity : ℚ
  translateY : ℚ
  deriving DecidableEq

/-- Normalised distance `t` of an element from the viewport centre; `vh` is the
viewport height, `top` and `height` come from `getBoundingClientRect`.  The
quotient is the exact one whenever `maxDist` is not zero. -/
def normDistance (vh top height : ℚ) : ℚ :=
  let vCenter := vh / 2
  let elemCenter := top + height / 2
  let distance := |elemCenter - vCenter|
  let maxDist := vh / 2 + height / 2
  min 1 (distance / maxDist)

/-- The constants `scale`, `opacity` and `translateY` of the observer callback. -/
def computeVisual (vh top height : ℚ) : Visual :=
  let t := normDistance vh top height
  { scale := scaleMin + (1 - t) * (scaleMax - scaleMin),
    opacity := opacityMin + (1 - t) * (opacityMax - opacityMin),
    translateY := 18 * t }

/-- Arguments handed to `applyVisual`: `scale.toFixed(3)`, `opacity.toFixed(2)`,
`Math.round(translateY)`. -/
def appliedVisual (vh top height : ℚ) : Visual :=
  let v := computeVisual vh top height
  { scale := toFixed v.scale 3, opacity := toFixed v.opacity 2,
    translateY := (mathRound v.translateY : ℚ) }

/-! ## Scroll arrows (`addArrowsAndKeyboard`) -/

/-- Scroll geometry of the container. -/
structure ScrollBox where
  scrollLeft : ℚ
  scrollWidth : ℚ
  clientWidth : ℚ

/-- Presence of the classes `can-left` and `can-right` on the wrapper. -/
structure ArrowFlags where
  canLeft : Bool
  canRight : Bool
  deriving DecidableEq

/-- The function `updateArrowVisibility`: `classList.toggle(name, force)` makes
the presence of the class equal to `force`. -/
def updateArrowVisibility (c : ScrollBox) (w : ArrowFlags) : ArrowFlags :=
  { w with
    canLeft := decide (8 < c.scrollLeft),
    canRight := decide (8 < c.scrollWidth - c.clientWidth - c.scrollLeft) }

/-! ## Label fitting (`createSVGOverlay`) -/

/-- A JavaScript string as the list of its UTF-16 code units. -/
abbrev JSString := List ℕ

/-- The code unit U+2026 of the horizontal ellipsis. -/
def ellipsis : ℕ := 0x2026

/-- One entry of `items`. -/
structure Item where
  title : JSString
  sub : JSString
  desc : JSString
  fullTitle : JSString

/-- Entry built from the `data-title`, `data-sub` and `data-desc` attributes of a
card (a missing attribute is the empty string). -/
def itemOfCard (title sub desc : JSString) : Item :=
  { title := title, sub := sub, desc := desc, fullTitle := title }

/-- The expression `text.getComputedTextLength ? text.getComputedTextLength() : dflt`;
the method, when present, measures the current content at the current font size. -/
def measureOr (g : Option (ℕ → JSString → ℚ)) (fontPx : ℕ) (content : JSString) (dflt : ℚ) : ℚ :=
  match g with
  | some m => m fontPx content
  | none => dflt

/-- The font loop `while (measured > maxAllowed && fontPx > 10)`; returns the
final `fontPx` and `measured`. -/
def shrinkFont (g : Option (ℕ → JSString → ℚ)) (content : JSString) (maxAllowed : ℚ)
    (fontPx : ℕ) (measured : ℚ) : ℕ × ℚ :=
  if h : maxAllowed < measured ∧ 10 < fontPx then
    shrinkFont g content maxAllowed (fontPx - 1) (measureOr g (fontPx - 1) content measured)
  else (fontPx, measured)
termination_by fontPx
decreasing_by omega

/-- Variables of the truncation loop, with the number of iterations run. -/
structure TruncResult where
  textContent : JSString
  measured : ℚ
  iterations : ℕ

/-- The truncation loop `while (truncated.length > 3)` with its `break`. -/
def truncateLoop (g : Option (ℕ → JSString → ℚ)) (fontPx : ℕ) (maxAllowed : ℚ)
    (truncated textContent : JSString) (measured : ℚ) (iterations : ℕ) : TruncResult :=
  if h : 3 < truncated.length then
    let truncated1 := truncated.dropLast
    let textContent1 := truncated1 ++ [ellipsis]
    let measured1 := measureOr g fontPx textContent1 measured
    if measured1 ≤ maxAllowed then
      { textContent := textContent1, measured := measured1, iterations := iterations + 1 }
    else truncateLoop g fontPx maxAllowed truncated1 textContent1 measured1 (iterations + 1)
  else { textContent := textContent, measured := measured, iterations := iterations }
termination_by truncated.length
decreasing_by simp [List.length_dropLast]; omega

/-- Outcome of the label-fitting step for one item. -/
structure Label where
  fontPx : ℕ
  textContent : JSString
  iterations : ℕ

/-- The adaptive font-size block of `createSVGOverlay`; `g` is
`text.getComputedTextLength` and `pathLen` is `path.getTotalLength()`. -/
def fitLabel (g : Option (ℕ → JSString → ℚ)) (pathLen : ℚ) (it : Item) : Label :=
  let maxAllowed := pathLen * (6 / 10)
  let fitted := shrinkFont g it.title maxAllowed 16 (measureOr g 16 it.title 0)
  if maxAllowed < fitted.2 then
    let full := if it.fullTitle ≠ [] then it.fullTitle else it.title
    let r := truncateLoop g fitted.1 maxAllowed full it.title fitted.2 0
    { fontPx := fitted.1, textContent := r.textContent, iterations := r.iterations }
  else { fontPx := fitted.1, textContent := it.title, iterations := 0 }

/-- A measurement proportional to font size and number of code units. -/
def linearMeasure : Option (ℕ → JSString → ℚ) := some (fun f s => (f : ℚ) * (s.length : ℚ))

/-- Whenever both indices are set they name the same item. -/
def SameWhenBoth (s : Orbit) : Prop :=
  ∀ i j, s.selectedIndex = some i → s.rotatingToIndex = some j → i = j

/-- A measurement that reports 1000 for every content and font size. -/
def neverFits : Option (ℕ → JSString → ℚ) := some (fun _ _ => 1000)

/-! ## Numeric facts -/

theorem PI_pos : 0 < PI := by norm_num [PI]

theorem jsTrunc_of_nonneg {x : ℚ} (k : ℤ) (h1 : (k : ℚ) ≤ x) (h2 : x < k + 1) (h0 : 0 ≤ x) :
    jsTrunc x = k := by
  unfold jsTrunc
  rw [if_pos h0]
  exact Int.floor_eq_iff.mpr ⟨h1, h2⟩

theorem jsTrunc_of_neg {x : ℚ} (k : ℤ) (h1 : (k : ℚ) - 1 < x) (h2 : x ≤ k) (h0 : x < 0) :
    jsTrunc x = k := by
  unfold jsTrunc
  rw [if_neg (not_le.mpr h0)]
  exact Int.ceil_eq_iff.mpr ⟨h1, h2⟩

theorem mathRound_eq {x : ℚ} (k : ℤ) (h1 : (k : ℚ) ≤ x + 1 / 2) (h2 : x + 1 / 2 < k + 1) :
    mathRound x = k := by
  unfold mathRound
  exact Int.floor_eq_iff.mpr ⟨h1, h2⟩

/-- Value of `shortestAngle` at `c * PI` in terms of the truncated quotient. -/
theorem shortestAngle_mul_PI (c : ℚ) :
    shortestAngle (c * PI) = (c - 2 * (jsTrunc ((c + 1) / 2) : ℚ)) * PI := by
  have hpi : PI ≠ 0 := ne_of_gt PI_pos
  unfold shortestAngle jsRem
  have : (c * PI + PI) / (PI * 2) = (c + 1) / 2 := by field_simp; ring
  rw [this]; ring

theorem targetOffset_eq (count idx : ℕ) :
    targetOffset count idx
      = (3 / 2 - 2 * ((idx : ℚ) / count) + 2 * (mathRound (3 / 4 - (idx : ℚ) / count) : ℚ)) * PI := by
  have hpi : PI ≠ 0 := ne_of_gt PI_pos
  unfold targetOffset
  have : (3 * PI / 2 - (idx : ℚ) / count * PI * 2) / (PI * 2) = 3 / 4 - (idx : ℚ) / count := by
    field_simp; ring
  simp only [this]; ring

/-! ## Frame lemmas -/

/-- A frame while rotating that is within reach of the target: arrival. -/
theorem animate_arrive (s : Orbit) (ts : ℚ) (i : ℕ) (t : ℚ)
    (hr : s.rotatingToIndex = some i) (ht : s.rotationTargetOffset = some t)
    (hd : |shortestAngle (t - s.angleOffset)| ≤ max rotationTolerance (rotationToSpeed * frameDt s ts)) :
    animate s ts =
      { s with
        lastTs := some ts, angleOffset := t, selectedIndex := some i,
        nodes := s.nodes.modify applyStyleNode i, rotatingToIndex := none,
        rotationTargetOffset := none, pauseUntil := some (ts + 15000) } := by
  simp [animate, rotationDelta, hr, ht, hd, applySelectedStyle]

/-- A frame while rotating that is out of reach of the target: one bounded step. -/
theorem animate_toward (s : Orbit) (ts : ℚ) (i : ℕ) (t : ℚ)
    (hr : s.rotatingToIndex = some i) (ht : s.rotationTargetOffset = some t)
    (hd : ¬ |shortestAngle (t - s.angleOffset)| ≤ max rotationTolerance (rotationToSpeed * frameDt s ts)) :
    animate s ts =
      { s with
        lastTs := some ts,
        angleOffset := s.angleOffset
          + mathSign (shortestAngle (t - s.angleOffset)) * (rotationToSpeed * frameDt s ts) } := by
  simp [animate, rotationDelta, hr, ht, hd]

/-- A frame with no rotation target and no pause: auto-rotation. -/
theorem animate_idle (s : Orbit) (ts : ℚ)
    (hr : s.rotatingToIndex = none) (hp : s.pauseUntil = none) :
    animate s ts =
      { s with lastTs := some ts, angleOffset := s.angleOffset + speed * frameDt s ts } := by
  simp [animate, hr, hp, rotateOnlyOnce]

/-- A frame inside the pause: only `lastTs` moves. -/
theorem animate_paused (s : Orbit) (ts p : ℚ)
    (hr : s.rotatingToIndex = none) (hp : s.pauseUntil = some p) (hlt : ts < p) :
    animate s ts = { s with lastTs := some ts } := by
  simp [animate, hr, hp, rotateOnlyOnce, hlt, not_le.mpr hlt]

/-- A frame at or after the end of the pause: the selection is dropped and auto-rotation resumes. -/
theorem animate_expire (s : Orbit) (ts p : ℚ)
    (hr : s.rotatingToIndex = none) (hp : s.pauseUntil = some p) (hle : p ≤ ts) :
    animate s ts =
      { s with
        lastTs := some ts, selectedIndex := none, pauseUntil := none,
        nodes := removeSelectedStyle s.nodes s.selectedIndex,
        angleOffset := s.angleOffset + speed * frameDt s ts } := by
  cases hs : s.selectedIndex <;> simp [animate, hr, hp, rotateOnlyOnce, hle, hs, removeSelectedStyle]


/-! ## Click, then frames -/

theorem startRotateToIndex_rotating (s : Orbit) (i : ℕ) (hn : 0 < s.nodes.length) :
    (startRotateToIndex s i).rotatingToIndex = some i ∧
    (startRotateToIndex s i).rotationTargetOffset = some (targetOffset s.nodes.length i) := by
  have h0 : s.nodes.length ≠ 0 := Nat.pos_iff_ne_zero.mp hn
  unfold startRotateToIndex
  rw [if_neg h0]
  constructor <;> (dsimp only; split <;> rfl)

/-- A frame that leaves a rotation in progress keeps its index and target. -/
theorem animate_keeps_rotation (s : Orbit) (ts : ℚ) (i : ℕ) (t : ℚ)
    (hr : s.rotatingToIndex = some i) (ht : s.rotationTargetOffset = some t)
    (h : (animate s ts).rotatingToIndex ≠ none) :
    (animate s ts).rotatingToIndex = some i ∧ (animate s ts).rotationTargetOffset = some t := by
  by_cases hd : |shortestAngle (t - s.angleOffset)|
      ≤ max rotationTolerance (rotationToSpeed * frameDt s ts)
  · rw [animate_arrive s ts i t hr ht hd] at h
    exact absurd rfl h
  · rw [animate_toward s ts i t hr ht hd]
    exact ⟨hr, ht⟩

/-- A frame that ends a rotation selects its index and snaps to its target. -/
theorem animate_ends_rotation (s : Orbit) (ts : ℚ) (i : ℕ) (t : ℚ)
    (hr : s.rotatingToIndex = some i) (ht : s.rotationTargetOffset = some t)
    (h : (animate s ts).rotatingToIndex = none) :
    (animate s ts).selectedIndex = some i ∧ (animate s ts).angleOffset = t ∧
    (animate s ts).pauseUntil = some (ts + 15000) := by
  by_cases hd : |shortestAngle (t - s.angleOffset)|
      ≤ max rotationTolerance (rotationToSpeed * frameDt s ts)
  · rw [animate_arrive s ts i t hr ht hd]
    exact ⟨rfl, rfl, rfl⟩
  · rw [animate_toward s ts i t hr ht hd] at h
    rw [hr] at h
    exact absurd h (by simp)

theorem runFrames_append (s : Orbit) (xs : List ℚ) (ts : ℚ) :
    runFrames s (xs ++ [ts]) = animate (runFrames s xs) ts := by
  simp [runFrames, List.foldl_append]

/-- While every frame so far left the rotation in progress, index and target are unchanged. -/
theorem runFrames_keeps_rotation (s : Orbit) (i : ℕ) (t : ℚ)
    (hr : s.rotatingToIndex = some i) (ht : s.rotationTargetOffset = some t) (pre : List ℚ)
    (hpre : ∀ k, k ≤ pre.length → (runFrames s (pre.take k)).rotatingToIndex ≠ none) :
    (runFrames s pre).rotatingToIndex = some i ∧
    (runFrames s pre).rotationTargetOffset = some t := by
  induction pre using List.reverseRecOn with
  | nil => exact ⟨hr, ht⟩
  | append_singleton xs x ih =>
    have hxs : ∀ k, k ≤ xs.length → (runFrames s (xs.take k)).rotatingToIndex ≠ none := by
      intro k hk
      have := hpre k (by simp; omega)
      rwa [List.take_append_of_le_length hk] at this
    obtain ⟨h1, h2⟩ := ih hxs
    have hlast := hpre (xs ++ [x]).length le_rfl
    rw [List.take_length, runFrames_append] at hlast
    rw [runFrames_append]
    exact animate_keeps_rotation _ x i t h1 h2 hlast

/-- C1: after `startRotateToIndex i` on an overlay that has item `i`, and with no
further click, the first later frame that ends the rotation (every earlier frame
left `rotatingToIndex` set, this one resets it to null) sets `selectedIndex` to `i`
and `angleOffset` to the target offset computed for `i`, from any prior state. -/
theorem click_selects_on_completion (s : Orbit) (i : ℕ) (hi : i < s.nodes.length)
    (pre : List ℚ) (ts : ℚ)
    (hpre : ∀ k, k ≤ pre.length →
      (runFrames (startRotateToIndex s i) (pre.take k)).rotatingToIndex ≠ none)
    (hend : (animate (runFrames (startRotateToIndex s i) pre) ts).rotatingToIndex = none) :
    (animate (runFrames (startRotateToIndex s i) pre) ts).selectedIndex = some i ∧
    (animate (runFrames (startRotateToIndex s i) pre) ts).angleOffset
      = targetOffset s.nodes.length i := by
  obtain ⟨h1, h2⟩ := startRotateToIndex_rotating s i (Nat.lt_of_le_of_lt (Nat.zero_le i) hi)
  obtain ⟨h3, h4⟩ := runFrames_keeps_rotation _ i _ h1 h2 pre hpre
  obtain ⟨h5, h6, _⟩ := animate_ends_rotation _ ts i _ h3 h4 hend
  exact ⟨h5, h6⟩


/-! ## Selection versus rotation in progress -/

theorem animate_rotating_none (s : Orbit) (ts : ℚ) (hr : s.rotatingToIndex = none) :
    (animate s ts).rotatingToIndex = none := by
  cases hp : s.pauseUntil with
  | none => rw [animate_idle s ts hr hp]; exact hr
  | some p =>
    by_cases hle : p ≤ ts
    · rw [animate_expire s ts p hr hp hle]; exact hr
    · rw [animate_paused s ts p hr hp (not_le.mp hle)]; exact hr

theorem startRotateToIndex_sameWhenBoth (s : Orbit) (idx : ℕ) (h : SameWhenBoth s) :
    SameWhenBoth (startRotateToIndex s idx) := by
  intro i j hs hr
  unfold startRotateToIndex at hs hr
  by_cases h0 : s.nodes.length = 0
  · rw [if_pos h0] at hs hr
    exact h i j hs hr
  · rw [if_neg h0] at hs hr
    dsimp only at hs hr
    split at hs
    · simp at hs
    · rename_i hc
      have hj : idx = j := by
        rw [if_neg hc] at hr
        simpa using hr
      have hsel : s.selectedIndex = some i := by simpa using hs
      rw [hsel] at hc
      simp at hc
      omega

theorem animate_sameWhenBoth (s : Orbit) (ts : ℚ) (h : SameWhenBoth s) :
    SameWhenBoth (animate s ts) := by
  intro i j hs hr
  cases hrot : s.rotatingToIndex with
  | none =>
    rw [animate_rotating_none s ts hrot] at hr
    exact absurd hr (by simp)
  | some r =>
    by_cases hd : |shortestAngle (s.rotationTargetOffset.getD 0 - s.angleOffset)|
        ≤ max rotationTolerance (rotationToSpeed * frameDt s ts)
    · have : (animate s ts).rotatingToIndex = none := by
        simp [animate, rotationDelta, hrot, hd]
      rw [this] at hr
      exact absurd hr (by simp)
    · have h1 : (animate s ts).rotatingToIndex = s.rotatingToIndex := by
        simp [animate, rotationDelta, hrot, hd]
      have h2 : (animate s ts).selectedIndex = s.selectedIndex := by
        simp [animate, rotationDelta, hrot, hd]
      rw [h1] at hr
      rw [h2] at hs
      exact h i j hs hr

theorem run_sameWhenBoth (es : List Event) :
    ∀ s : Orbit, SameWhenBoth s → SameWhenBoth (run s es) := by
  induction es with
  | nil => intro s h; exact h
  | cons e es ih =>
    intro s h
    show SameWhenBoth (run (step s e) es)
    apply ih
    cases e with
    | click i => exact startRotateToIndex_sameWhenBoth s i h
    | frame ts => exact animate_sameWhenBoth s ts h

/-- C2, amended: in every state reachable from the initial state by clicks and
frames, `selectedIndex` and `rotatingToIndex` are both non-null only when they
name the same item (a click on the item that is already selected). -/
theorem selected_and_rotating_agree (nodes : List OrbitNode) (es : List Event) (i j : ℕ)
    (hs : (run (initOrbit nodes) es).selectedIndex = some i)
    (hr : (run (initOrbit nodes) es).rotatingToIndex = some j) : i = j := by
  have h0 : SameWhenBoth (initOrbit nodes) := by
    intro a b ha _
    simp [initOrbit] at ha
  exact run_sameWhenBoth es (initOrbit nodes) h0 i j hs hr


/-! ## Concrete histories on a two-label overlay -/

theorem targetOffset_two_zero : targetOffset 2 0 = 7 / 2 * PI := by
  rw [targetOffset_eq, mathRound_eq 1 (by norm_num) (by norm_num)]; norm_num

theorem targetOffset_two_one : targetOffset 2 1 = 1 / 2 * PI := by
  rw [targetOffset_eq, mathRound_eq 0 (by norm_num) (by norm_num)]; norm_num

theorem shortestAngle_seven_halves : shortestAngle (7 / 2 * PI - 0) = -(1 / 2) * PI := by
  rw [sub_zero, shortestAngle_mul_PI,
    jsTrunc_of_nonneg 2 (by norm_num) (by norm_num) (by norm_num)]
  norm_num

theorem shortestAngle_self (t : ℚ) : shortestAngle (t - t) = 0 := by
  have h := shortestAngle_mul_PI 0
  rw [jsTrunc_of_nonneg 0 (by norm_num) (by norm_num) (by norm_num)] at h
  simpa using h

theorem shortestAngle_minus_three : shortestAngle (1 / 2 * PI - 7 / 2 * PI) = -PI := by
  have h := shortestAngle_mul_PI (-3)
  rw [jsTrunc_of_neg (-1) (by norm_num) (by norm_num) (by norm_num)] at h
  have e : (1 / 2 * PI - 7 / 2 * PI) = -3 * PI := by ring
  rw [e, h]; norm_num

/-- Node 0 after `applySelectedStyle` ran once on it. -/
theorem styled_once : applyStyleNode (freshNode 16)
    = { fontSize := some 22, fontWeight := some 700, prevFontSize := some (some 16),
        prevFontWeight := some none } := by
  decide

/-- Node 0 after `applySelectedStyle` ran twice on it with no removal in between. -/
theorem styled_twice : applyStyleNode (applyStyleNode (freshNode 16))
    = { fontSize := some 30, fontWeight := some 700, prevFontSize := some (some 22),
        prevFontWeight := some (some 700) } := by
  decide

/-- Node 0 after two applications and one `removeSelectedStyle`. -/
theorem styled_twice_removed : removeStyleNode (applyStyleNode (applyStyleNode (freshNode 16)))
    = { fontSize := some 22, fontWeight := some 700, prevFontSize := some (some 22),
        prevFontWeight := some (some 700) } := by
  decide

theorem first_frame :
    animate (initOrbit twoNodes) 1000
      = orbitState 0 (some 1000) none none none none twoNodes := by
  rw [animate_idle _ _ rfl rfl]
  simp [initOrbit, orbitState, frameDt, rotateOnlyOnce]

theorem first_click :
    startRotateToIndex (orbitState 0 (some 1000) none none none none twoNodes) 0
      = orbitState 0 (some 1000) none (some 0) (some (7 / 2 * PI)) none twoNodes := by
  simp [startRotateToIndex, orbitState, twoNodes, targetOffset_two_zero]

theorem first_arrival :
    animate (orbitState 0 (some 1000) none (some 0) (some (7 / 2 * PI)) none twoNodes) 11000
      = orbitState (7 / 2 * PI) (some 11000) (some 0) none none (some 26000)
          [applyStyleNode (freshNode 16), freshNode 16] := by
  rw [animate_arrive _ _ 0 (7 / 2 * PI) rfl rfl]
  · simp [orbitState, twoNodes]; norm_num
  · simp only [orbitState, shortestAngle_seven_halves]
    rw [abs_of_neg (by nlinarith [PI_pos])]
    apply le_max_of_le_right
    norm_num [rotationToSpeed, frameDt, PI]

theorem second_click :
    startRotateToIndex (orbitState (7 / 2 * PI) (some 11000) (some 0) none none (some 26000)
        [applyStyleNode (freshNode 16), freshNode 16]) 0
      = orbitState (7 / 2 * PI) (some 11000) (some 0) (some 0) (some (7 / 2 * PI)) none
          [applyStyleNode (freshNode 16), freshNode 16] := by
  simp [startRotateToIndex, orbitState, targetOffset_two_zero]

theorem second_arrival :
    animate (orbitState (7 / 2 * PI) (some 11000) (some 0) (some 0) (some (7 / 2 * PI)) none
        [applyStyleNode (freshNode 16), freshNode 16]) 11016
      = orbitState (7 / 2 * PI) (some 11016) (some 0) none none (some 26016)
          [applyStyleNode (applyStyleNode (freshNode 16)), freshNode 16] := by
  rw [animate_arrive _ _ 0 (7 / 2 * PI) rfl rfl]
  · simp [orbitState]; norm_num
  · simp only [orbitState, shortestAngle_self, abs_zero]
    apply le_max_of_le_left
    norm_num [rotationTolerance]

theorem pause_expiry :
    animate (orbitState (7 / 2 * PI) (some 11016) (some 0) none none (some 26016)
        [applyStyleNode (applyStyleNode (freshNode 16)), freshNode 16]) 26016
      = orbitState (7 / 2 * PI + 6) (some 26016) none none none none
          [removeStyleNode (applyStyleNode (applyStyleNode (freshNode 16))), freshNode 16] := by
  rw [animate_expire _ _ 26016 rfl rfl le_rfl]
  simp [orbitState, removeSelectedStyle, frameDt, speed]; norm_num

theorem third_click :
    startRotateToIndex (orbitState (7 / 2 * PI) (some 11016) (some 0) none none (some 26016)
        [applyStyleNode (applyStyleNode (freshNode 16)), freshNode 16]) 1
      = orbitState (7 / 2 * PI) (some 11016) none (some 1) (some (1 / 2 * PI)) none
          [removeStyleNode (applyStyleNode (applyStyleNode (freshNode 16))), freshNode 16] := by
  simp [startRotateToIndex, orbitState, targetOffset_two_one, removeSelectedStyle]

theorem third_arrival :
    animate (orbitState (7 / 2 * PI) (some 11016) none (some 1) (some (1 / 2 * PI)) none
        [removeStyleNode (applyStyleNode (applyStyleNode (freshNode 16))), freshNode 16]) 21016
      = orbitState (1 / 2 * PI) (some 21016) (some 1) none none (some 36016)
          [removeStyleNode (applyStyleNode (applyStyleNode (freshNode 16))),
            applyStyleNode (freshNode 16)] := by
  rw [animate_arrive _ _ 1 (1 / 2 * PI) rfl rfl]
  · simp [orbitState]; norm_num
  · simp only [orbitState, shortestAngle_minus_three, abs_neg, abs_of_pos PI_pos]
    apply le_max_of_le_right
    norm_num [rotationToSpeed, frameDt, PI]

/-- State after selecting item 0, clicking it again and arriving a second time. -/
theorem reclick_state :
    run (initOrbit twoNodes)
        [Event.frame 1000, Event.click 0, Event.frame 11000, Event.click 0, Event.frame 11016]
      = orbitState (7 / 2 * PI) (some 11016) (some 0) none none (some 26016)
          [applyStyleNode (applyStyleNode (freshNode 16)), freshNode 16] := by
  simp only [run, List.foldl, step]
  rw [first_frame, first_click, first_arrival, second_click, second_arrival]


theorem shortestAngle_of_trunc (a : ℚ) (k : ℤ) (h : jsTrunc ((a + PI) / (PI * 2)) = k) :
    shortestAngle a = a - 2 * (k : ℚ) * PI := by
  unfold shortestAngle jsRem
  rw [h]; ring

theorem mathSign_of_neg {x : ℚ} (h : x < 0) : mathSign x = -1 := by
  unfold mathSign
  rw [if_neg (not_lt.mpr (le_of_lt h)), if_pos h]

theorem toward_frame :
    animate (orbitState 0 (some 1000) none (some 0) (some (7 / 2 * PI)) none twoNodes) 1016
      = orbitState (-(1 / 25)) (some 1016) none (some 0) (some (7 / 2 * PI)) none twoNodes := by
  rw [animate_toward _ _ 0 (7 / 2 * PI) rfl rfl]
  · simp only [orbitState, shortestAngle_seven_halves]
    have hneg : -(1 / 2) * PI < 0 := by nlinarith [PI_pos]
    rw [mathSign_of_neg hneg]
    simp [frameDt, rotationToSpeed]
    norm_num
  · simp only [orbitState, shortestAngle_seven_halves]
    rw [abs_of_neg (by nlinarith [PI_pos])]
    norm_num [rotationToSpeed, rotationTolerance, frameDt, PI]

theorem late_arrival :
    animate (orbitState (-(1 / 25)) (some 1016) none (some 0) (some (7 / 2 * PI)) none twoNodes)
        11000
      = orbitState (7 / 2 * PI) (some 11000) (some 0) none none (some 26000)
          [applyStyleNode (freshNode 16), freshNode 16] := by
  rw [animate_arrive _ _ 0 (7 / 2 * PI) rfl rfl]
  · simp [orbitState, twoNodes]; norm_num
  · simp only [orbitState]
    rw [shortestAngle_of_trunc _ 2 (jsTrunc_of_nonneg 2 (by norm_num [PI]) (by norm_num [PI])
      (by norm_num [PI]))]
    apply le_max_of_le_right
    rw [abs_le]
    constructor <;> norm_num [rotationToSpeed, frameDt, PI]

/-- C1 at a concrete history: a click on item 0 during auto-rotation, one frame
that leaves the rotation in progress, and the frame that ends it. -/
theorem click_selects_on_completion_witness :
    (animate (runFrames (startRotateToIndex
        (orbitState 0 (some 1000) none none none none twoNodes) 0) [1016]) 11000).selectedIndex
      = some 0 ∧
    (animate (runFrames (startRotateToIndex
        (orbitState 0 (some 1000) none none none none twoNodes) 0) [1016]) 11000).angleOffset
      = targetOffset (orbitState 0 (some 1000) none none none none twoNodes).nodes.length 0 := by
  apply click_selects_on_completion (orbitState 0 (some 1000) none none none none twoNodes) 0
    (by decide) [1016] 11000
  · intro k hk
    have hk1 : k = 0 ∨ k = 1 := by
      simp at hk; omega
    rcases hk1 with rfl | rfl
    · simp only [runFrames, List.take, List.foldl]
      rw [first_click]
      simp [orbitState]
    · simp only [runFrames, List.take, List.foldl]
      rw [first_click, toward_frame]
      simp [orbitState]
  · simp only [runFrames, List.foldl]
    rw [first_click, toward_frame, late_arrival]
    rfl

/-- C2 as stated fails: after item 0 is selected and clicked again (all events
name items of the overlay), `selectedIndex` and `rotatingToIndex` are both non-null. -/
theorem selected_while_rotating :
    (∀ e ∈ [Event.frame 1000, Event.click 0, Event.frame 11000, Event.click 0],
      Event.valid twoNodes.length e) ∧
    (run (initOrbit twoNodes)
      [Event.frame 1000, Event.click 0, Event.frame 11000, Event.click 0]).selectedIndex = some 0 ∧
    (run (initOrbit twoNodes)
      [Event.frame 1000, Event.click 0, Event.frame 11000, Event.click 0]).rotatingToIndex
      = some 0 := by
  refine ⟨?_, ?_⟩
  · intro e he
    simp only [List.mem_cons, List.mem_singleton, List.not_mem_nil, or_false] at he
    rcases he with rfl | rfl | rfl | rfl <;> simp [Event.valid, twoNodes]
  · simp only [run, List.foldl, step]
    rw [first_frame, first_click, first_arrival, second_click]
    exact ⟨rfl, rfl⟩

theorem late_reclick :
    run (initOrbit twoNodes)
      [Event.frame 1000, Event.click 0, Event.frame 1016, Event.frame 11000, Event.click 0]
      = orbitState (7 / 2 * PI) (some 11000) (some 0) (some 0) (some (7 / 2 * PI)) none
          [applyStyleNode (freshNode 16), freshNode 16] := by
  simp only [run, List.foldl, step]
  rw [first_frame, first_click, toward_frame, late_arrival, second_click]

/-- C2 amended, at a concrete history in which both indices are set. -/
theorem selected_and_rotating_agree_witness :
    (run (initOrbit twoNodes)
      [Event.frame 1000, Event.click 0, Event.frame 1016, Event.frame 11000,
        Event.click 0]).selectedIndex = some 0 ∧
    (run (initOrbit twoNodes)
      [Event.frame 1000, Event.click 0, Event.frame 1016, Event.frame 11000,
        Event.click 0]).rotatingToIndex = some 0 ∧
    (0 : ℕ) = 0 :=
  ⟨by rw [late_reclick]; rfl, by rw [late_reclick]; rfl,
    selected_and_rotating_agree twoNodes
      [Event.frame 1000, Event.click 0, Event.frame 1016, Event.frame 11000, Event.click 0] 0 0
      (by rw [late_reclick]; rfl) (by rw [late_reclick]; rfl)⟩

/-- C3 fails on the code: item 0 is selected, clicked again and selected again at
the frame `11016`; the frame `26016 = 11016 + 15000` returns to auto-rotation
(`selectedIndex` and `pauseUntil` null, `angleOffset` advanced by `speed * dt = 6`),
yet node 0 keeps `22px` and weight `700` instead of its initial `16px` and empty
weight. -/
theorem reclick_styling_survives_pause :
    run (initOrbit twoNodes)
        [Event.frame 1000, Event.click 0, Event.frame 11000, Event.click 0, Event.frame 11016,
          Event.frame 26016]
      = orbitState (7 / 2 * PI + 6) (some 26016) none none none none
          [{ fontSize := some 22, fontWeight := some 700, prevFontSize := some (some 22),
             prevFontWeight := some (some 700) }, freshNode 16] ∧
    twoNodes.map (fun n => (n.fontSize, n.fontWeight)) = [(some 16, none), (some 16, none)] := by
  constructor
  · have h := reclick_state
    simp only [run, List.foldl, step] at h ⊢
    rw [h, pause_expiry, styled_twice_removed]
  · decide

/-- C4 fails on the code: item 0 is selected, clicked again and selected again,
then item 1 is clicked and selected; in the resulting state only item 1 is
selected but nodes 0 and 1 both carry `22px` and weight `700`, while both started
at `16px` with empty weight. -/
theorem two_nodes_styled_at_once :
    run (initOrbit twoNodes)
        [Event.frame 1000, Event.click 0, Event.frame 11000, Event.click 0, Event.frame 11016,
          Event.click 1, Event.frame 21016]
      = orbitState (1 / 2 * PI) (some 21016) (some 1) none none (some 36016)
          [{ fontSize := some 22, fontWeight := some 700, prevFontSize := some (some 22),
             prevFontWeight := some (some 700) },
           { fontSize := some 22, fontWeight := some 700, prevFontSize := some (some 16),
             prevFontWeight := some none }] := by
  have h := reclick_state
  simp only [run, List.foldl, step] at h ⊢
  rw [h, third_click, third_arrival, styled_twice_removed, styled_once]

theorem long_idle_frame :
    animate (orbitState 0 (some 1000) none none none none twoNodes) 41000
      = orbitState 16 (some 41000) none none none none twoNodes := by
  rw [animate_idle _ _ rfl rfl]
  simp [orbitState, frameDt, speed]; norm_num

theorem late_click :
    startRotateToIndex (orbitState 16 (some 41000) none none none none twoNodes) 0
      = orbitState 16 (some 41000) none (some 0) (some (7 / 2 * PI)) none twoNodes := by
  simp [startRotateToIndex, orbitState, twoNodes, targetOffset_two_zero]

theorem shortestAngle_late : shortestAngle (7 / 2 * PI - 16) = 7 / 2 * PI - 16 := by
  rw [shortestAngle_of_trunc _ 0 (jsTrunc_of_neg 0 (by norm_num [PI]) (by norm_num [PI])
    (by norm_num [PI]))]
  norm_num

/-- C5 fails on the code: after 40 s of auto-rotation `angleOffset` is 16; a click
on item 0 of 2 picks the target `7π/2` although the equivalent `7π/2 + 2π` is
closer to 16, the delta followed is `7π/2 - 16` of absolute value above π, and the
next frame moves `angleOffset` down, away from the closer equivalent. -/
theorem rotation_takes_longer_arc :
    run (initOrbit twoNodes) [Event.frame 1000, Event.frame 41000, Event.click 0]
      = orbitState 16 (some 41000) none (some 0) (some (7 / 2 * PI)) none twoNodes ∧
    |(7 / 2 * PI + PI * 2) - 16| < |7 / 2 * PI - 16| ∧
    rotationDelta (orbitState 16 (some 41000) none (some 0) (some (7 / 2 * PI)) none twoNodes)
      = 7 / 2 * PI - 16 ∧
    PI < |7 / 2 * PI - 16| ∧
    animate (orbitState 16 (some 41000) none (some 0) (some (7 / 2 * PI)) none twoNodes) 41016
      = orbitState (16 - 1 / 25) (some 41016) none (some 0) (some (7 / 2 * PI)) none twoNodes := by
  have hneg : 7 / 2 * PI - 16 < 0 := by norm_num [PI]
  refine ⟨?_, ?_, ?_, ?_, ?_⟩
  · simp only [run, List.foldl, step]
    rw [first_frame, long_idle_frame, late_click]
  · rw [abs_of_neg hneg, abs_of_pos (by norm_num [PI])]
    norm_num [PI]
  · simp only [rotationDelta, orbitState, Option.getD_some, shortestAngle_late]
  · rw [abs_of_neg hneg]
    norm_num [PI]
  · rw [animate_toward _ _ 0 (7 / 2 * PI) rfl rfl]
    · simp only [orbitState, shortestAngle_late]
      rw [mathSign_of_neg hneg]
      simp [frameDt, rotationToSpeed]
      norm_num
    · simp only [orbitState, shortestAngle_late]
      rw [abs_of_neg hneg]
      norm_num [rotationToSpeed, rotationTolerance, frameDt, PI]

theorem toFixed_eq {x : ℚ} {digits : ℕ} (k : ℤ) (h1 : (k : ℚ) ≤ x * 10 ^ digits + 1 / 2)
    (h2 : x * 10 ^ digits + 1 / 2 < k + 1) : toFixed x digits = (k : ℚ) / 10 ^ digits := by
  unfold toFixed
  rw [Int.floor_eq_iff.mpr ⟨h1, h2⟩]

/-! ## Visibility-driven scaler -/

theorem normDistance_center (vh top height : ℚ)
    (hc : top + height / 2 = vh / 2) : normDistance vh top height = 0 := by
  unfold normDistance
  simp only [hc, sub_self, abs_zero, zero_div]
  exact min_eq_right zero_le_one

theorem normDistance_far (vh top height : ℚ) (hvh : 0 < vh) (hh : 0 ≤ height)
    (hd : vh / 2 + height / 2 ≤ |top + height / 2 - vh / 2|) : normDistance vh top height = 1 := by
  unfold normDistance
  have hpos : 0 < vh / 2 + height / 2 := by linarith
  exact min_eq_left ((one_le_div hpos).mpr hd)

/-- C6: for a viewport height above zero and a rectangle of non-negative height
whose vertical centre is the viewport centre, the divisor `maxDist` is positive and
the scaler computes scale 1.03 (`scaleMax`), opacity 1.0 (`opacityMax`) and
translateY 0, and hands exactly these values to `applyVisual`. -/
theorem scaler_at_center (vh top height : ℚ) (hvh : 0 < vh) (hh : 0 ≤ height)
    (hc : top + height / 2 = vh / 2) :
    0 < vh / 2 + height / 2 ∧
    computeVisual vh top height = { scale := scaleMax, opacity := opacityMax, translateY := 0 } ∧
    scaleMax = 103 / 100 ∧ opacityMax = 1 ∧
    appliedVisual vh top height = { scale := scaleMax, opacity := opacityMax, translateY := 0 } := by
  have ht := normDistance_center vh top height hc
  have hcv : computeVisual vh top height
      = { scale := scaleMax, opacity := opacityMax, translateY := 0 } := by
    simp [computeVisual, ht]
  refine ⟨by linarith, hcv, rfl, rfl, ?_⟩
  unfold appliedVisual
  rw [hcv]
  simp only [scaleMax, opacityMax]
  rw [toFixed_eq 1030 (by norm_num) (by norm_num), toFixed_eq 100 (by norm_num) (by norm_num),
    mathRound_eq 0 (by norm_num) (by norm_num)]
  norm_num

/-- C6 at a viewport of height 800 and a rectangle of height 200 whose top is at 300. -/
theorem scaler_at_center_witness :
    (0 : ℚ) < 800 / 2 + 200 / 2 ∧
    computeVisual 800 300 200 = { scale := scaleMax, opacity := opacityMax, translateY := 0 } ∧
    scaleMax = 103 / 100 ∧ opacityMax = 1 ∧
    appliedVisual 800 300 200 = { scale := scaleMax, opacity := opacityMax, translateY := 0 } :=
  scaler_at_center 800 300 200 (by norm_num) (by norm_num) (by norm_num)

/-- C7: for a viewport height above zero and a rectangle of non-negative height
whose centre is at least `maxDist = vh/2 + height/2` away from the viewport centre,
the normalised distance is 1 and the scaler computes scale 0.86 (`scaleMin`) and
opacity 0.6 (`opacityMin`), and hands exactly these values to `applyVisual`. -/
theorem scaler_at_max_distance (vh top height : ℚ) (hvh : 0 < vh) (hh : 0 ≤ height)
    (hd : vh / 2 + height / 2 ≤ |top + height / 2 - vh / 2|) :
    normDistance vh top height = 1 ∧
    (computeVisual vh top height).scale = scaleMin ∧
    (computeVisual vh top height).opacity = opacityMin ∧
    scaleMin = 86 / 100 ∧ opacityMin = 6 / 10 ∧
    (appliedVisual vh top height).scale = scaleMin ∧
    (appliedVisual vh top height).opacity = opacityMin := by
  have ht := normDistance_far vh top height hvh hh hd
  have h1 : (computeVisual vh top height).scale = scaleMin := by simp [computeVisual, ht]
  have h2 : (computeVisual vh top height).opacity = opacityMin := by simp [computeVisual, ht]
  refine ⟨ht, h1, h2, rfl, rfl, ?_, ?_⟩
  · show toFixed (computeVisual vh top height).scale 3 = scaleMin
    rw [h1, scaleMin, toFixed_eq 860 (by norm_num) (by norm_num)]
    norm_num
  · show toFixed (computeVisual vh top height).opacity 2 = opacityMin
    rw [h2, opacityMin, toFixed_eq 60 (by norm_num) (by norm_num)]
    norm_num

/-- C7 at a viewport of height 800 and a rectangle of height 200 whose top is at 900. -/
theorem scaler_at_max_distance_witness :
    normDistance 800 900 200 = 1 ∧
    (computeVisual 800 900 200).scale = scaleMin ∧
    (computeVisual 800 900 200).opacity = opacityMin ∧
    scaleMin = 86 / 100 ∧ opacityMin = 6 / 10 ∧
    (appliedVisual 800 900 200).scale = scaleMin ∧
    (appliedVisual 800 900 200).opacity = opacityMin :=
  scaler_at_max_distance 800 900 200 (by norm_num) (by norm_num) (by norm_num [abs_of_pos])

/-! ## Scroll arrows -/

/-- C8: `updateArrowVisibility` sets `can-left` only when `scrollLeft > 8` and
`can-right` only when `scrollWidth - clientWidth - scrollLeft > 8`; on a container
with `scrollWidth = clientWidth` and `0 ≤ scrollLeft ≤ scrollWidth - clientWidth`
both flags are false. -/
theorem arrow_flags (c : ScrollBox) (w : ArrowFlags) :
    ((updateArrowVisibility c w).canLeft = true → 8 < c.scrollLeft) ∧
    ((updateArrowVisibility c w).canRight = true →
      8 < c.scrollWidth - c.clientWidth - c.scrollLeft) ∧
    (c.scrollWidth = c.clientWidth → 0 ≤ c.scrollLeft →
      c.scrollLeft ≤ c.scrollWidth - c.clientWidth →
      (updateArrowVisibility c w).canLeft = false ∧
      (updateArrowVisibility c w).canRight = false) := by
  refine ⟨?_, ?_, ?_⟩
  · intro h
    simpa [updateArrowVisibility] using h
  · intro h
    simpa [updateArrowVisibility] using h
  · intro hw h0 h1
    have hz : c.scrollLeft = 0 := by
      rw [hw, sub_self] at h1
      exact le_antisymm h1 h0
    constructor
    · simp [updateArrowVisibility, hz]
    · simp [updateArrowVisibility, hz, hw]

/-- C8 at a container scrolled by 20 with hidden content on both sides, and at a
container exactly as wide as its content. -/
theorem arrow_flags_witness :
    (updateArrowVisibility ⟨20, 500, 300⟩ ⟨false, false⟩).canLeft = true ∧
    (8 : ℚ) < 20 ∧
    (updateArrowVisibility ⟨20, 500, 300⟩ ⟨false, false⟩).canRight = true ∧
    (updateArrowVisibility ⟨0, 300, 300⟩ ⟨true, true⟩).canLeft = false ∧
    (updateArrowVisibility ⟨0, 300, 300⟩ ⟨true, true⟩).canRight = false := by
  have hL : (updateArrowVisibility ⟨20, 500, 300⟩ ⟨false, false⟩).canLeft = true := by
    simp [updateArrowVisibility]; norm_num
  have hR : (updateArrowVisibility ⟨20, 500, 300⟩ ⟨false, false⟩).canRight = true := by
    simp [updateArrowVisibility]; norm_num
  have h := (arrow_flags ⟨0, 300, 300⟩ ⟨true, true⟩).2.2 rfl le_rfl (by norm_num)
  exact ⟨hL, (arrow_flags ⟨20, 500, 300⟩ ⟨false, false⟩).1 hL, hR, h.1, h.2⟩

/-! ## Label fitting -/

theorem measureOr_chain (g : Option (ℕ → JSString → ℚ)) (f f1 : ℕ) (c c1 : JSString) :
    measureOr g f c (measureOr g f1 c1 0) = measureOr g f c 0 := by
  cases g <;> rfl

/-- The font loop stops at the first size, going down from the start, at which the
text fits, or at the floor of 10px. -/
theorem shrinkFont_spec (g : Option (ℕ → JSString → ℚ)) (content : JSString) (maxAllowed : ℚ)
    (fontPx : ℕ) :
    ∀ measured : ℚ, 10 ≤ fontPx → measured = measureOr g fontPx content 0 →
      10 ≤ (shrinkFont g content maxAllowed fontPx measured).1 ∧
      (shrinkFont g content maxAllowed fontPx measured).1 ≤ fontPx ∧
      (shrinkFont g content maxAllowed fontPx measured).2
        = measureOr g (shrinkFont g content maxAllowed fontPx measured).1 content 0 ∧
      (maxAllowed < (shrinkFont g content maxAllowed fontPx measured).2 →
        (shrinkFont g content maxAllowed fontPx measured).1 = 10) ∧
      (∀ f, (shrinkFont g content maxAllowed fontPx measured).1 < f → f ≤ fontPx →
        maxAllowed < measureOr g f content 0) := by
  induction fontPx using Nat.strong_induction_on with
  | _ n ih =>
    intro measured h10 hm
    rw [shrinkFont]
    split
    · rename_i h
      have hlt : n - 1 < n := by omega
      obtain ⟨a1, a2, a3, a4, a5⟩ := ih (n - 1) hlt (measureOr g (n - 1) content measured)
        (by omega) (by rw [hm, measureOr_chain])
      refine ⟨a1, by omega, a3, a4, ?_⟩
      intro f hf1 hf2
      by_cases hfn : f = n
      · rw [hfn, ← hm]; exact h.1
      · exact a5 f hf1 (by omega)
    · rename_i h
      refine ⟨h10, le_rfl, hm, ?_, ?_⟩
      · intro hgt
        have : ¬ 10 < n := fun h2 => h ⟨hgt, h2⟩
        show n = 10
        omega
      · intro f hf1 hf2
        exact absurd hf1 (by simpa using hf2)

/-- The truncation loop, when it runs at all, leaves a prefix of at least three
code units followed by the ellipsis, and counts one iteration per dropped unit. -/
theorem truncateLoop_spec (g : Option (ℕ → JSString → ℚ)) (fontPx : ℕ) (maxAllowed : ℚ)
    (n : ℕ) :
    ∀ (truncated textContent : JSString) (measured : ℚ) (iterations : ℕ),
      truncated.length = n → 3 < n →
      ∃ pre : JSString, pre <+: truncated ∧ 3 ≤ pre.length ∧ pre.length < truncated.length ∧
        (truncateLoop g fontPx maxAllowed truncated textContent measured iterations).textContent
          = pre ++ [ellipsis] ∧
        (truncateLoop g fontPx maxAllowed truncated textContent measured iterations).iterations
          = iterations + (truncated.length - pre.length) := by
  induction n using Nat.strong_induction_on with
  | _ n ih =>
    intro truncated textContent measured iterations hlen hn
    have h3 : 3 < truncated.length := by omega
    have hdl : truncated.dropLast.length = n - 1 := by simp [List.length_dropLast, hlen]
    have hdp : truncated.dropLast <+: truncated := List.dropLast_prefix truncated
    rw [truncateLoop, dif_pos h3]
    dsimp only
    split
    · refine ⟨truncated.dropLast, hdp, by omega, by omega, rfl, ?_⟩
      rw [hdl, hlen]
      have : n - (n - 1) = 1 := by omega
      rw [this]
    · by_cases h4 : 3 < n - 1
      · obtain ⟨pre, p1, p2, p3, p4, p5⟩ := ih (n - 1) (by omega) truncated.dropLast
          (truncated.dropLast ++ [ellipsis])
          (measureOr g fontPx (truncated.dropLast ++ [ellipsis]) measured) (iterations + 1) hdl h4
        refine ⟨pre, p1.trans hdp, p2, by omega, p4, ?_⟩
        rw [p5, hdl, hlen]
        rw [hdl] at p3
        omega
      · have h5 : ¬ 3 < truncated.dropLast.length := by omega
        rw [truncateLoop, dif_neg h5]
        refine ⟨truncated.dropLast, hdp, by omega, by omega, rfl, ?_⟩
        show iterations + 1 = _
        rw [hdl, hlen]
        omega

theorem truncateLoop_short (g : Option (ℕ → JSString → ℚ)) (fontPx : ℕ) (maxAllowed : ℚ)
    (truncated textContent : JSString) (measured : ℚ) (iterations : ℕ)
    (h : ¬ 3 < truncated.length) :
    truncateLoop g fontPx maxAllowed truncated textContent measured iterations
      = { textContent := textContent, measured := measured, iterations := iterations } := by
  rw [truncateLoop, dif_neg h]


theorem fitLabel_fit (g : Option (ℕ → JSString → ℚ)) (pathLen : ℚ) (title sub desc : JSString)
    (h : ¬ pathLen * (6 / 10)
      < (shrinkFont g title (pathLen * (6 / 10)) 16 (measureOr g 16 title 0)).2) :
    (fitLabel g pathLen (itemOfCard title sub desc)).textContent = title ∧
    (fitLabel g pathLen (itemOfCard title sub desc)).iterations = 0 := by
  simp only [fitLabel, itemOfCard, if_neg h, and_self]

theorem fitLabel_overflow (g : Option (ℕ → JSString → ℚ)) (pathLen : ℚ)
    (title sub desc : JSString)
    (h : pathLen * (6 / 10)
      < (shrinkFont g title (pathLen * (6 / 10)) 16 (measureOr g 16 title 0)).2) :
    fitLabel g pathLen (itemOfCard title sub desc)
      = { fontPx := (shrinkFont g title (pathLen * (6 / 10)) 16 (measureOr g 16 title 0)).1,
          textContent := (truncateLoop g
            (shrinkFont g title (pathLen * (6 / 10)) 16 (measureOr g 16 title 0)).1
            (pathLen * (6 / 10)) title title
            (shrinkFont g title (pathLen * (6 / 10)) 16 (measureOr g 16 title 0)).2 0).textContent,
          iterations := (truncateLoop g
            (shrinkFont g title (pathLen * (6 / 10)) 16 (measureOr g 16 title 0)).1
            (pathLen * (6 / 10)) title title
            (shrinkFont g title (pathLen * (6 / 10)) 16 (measureOr g 16 title 0)).2 0).iterations } := by
  simp only [fitLabel, itemOfCard, if_pos h, ite_self]

/-- C9: in the label-fitting step the label is replaced by a truncated form only
if the fitted font size has reached the floor of 10px and the full title measured
at 10px still exceeds the budget `0.6 * pathLen`; whenever the title fits the
budget at some font size from 16px down to 10px, the label keeps the full title and
the truncation loop does not run.  This holds for every title, path length and
measurement function. -/
theorem truncation_only_at_floor (g : Option (ℕ → JSString → ℚ)) (pathLen : ℚ)
    (title sub desc : JSString) :
    ((fitLabel g pathLen (itemOfCard title sub desc)).textContent ≠ title ∨
        0 < (fitLabel g pathLen (itemOfCard title sub desc)).iterations →
      (fitLabel g pathLen (itemOfCard title sub desc)).fontPx = 10 ∧
      pathLen * (6 / 10) < measureOr g 10 title 0) ∧
    ((∃ f, 10 ≤ f ∧ f ≤ 16 ∧ measureOr g f title 0 ≤ pathLen * (6 / 10)) →
      (fitLabel g pathLen (itemOfCard title sub desc)).textContent = title ∧
      (fitLabel g pathLen (itemOfCard title sub desc)).iterations = 0) := by
  obtain ⟨a1, a2, a3, a4, a5⟩ := shrinkFont_spec g title (pathLen * (6 / 10)) 16
    (measureOr g 16 title 0) (by norm_num) rfl
  by_cases h : pathLen * (6 / 10)
      < (shrinkFont g title (pathLen * (6 / 10)) 16 (measureOr g 16 title 0)).2
  · have h10 := a4 h
    constructor
    · intro _
      rw [fitLabel_overflow g pathLen title sub desc h]
      refine ⟨h10, ?_⟩
      rw [a3, h10] at h
      exact h
    · rintro ⟨f, hf1, hf2, hf3⟩
      exfalso
      by_cases hf : f = 10
      · rw [a3, h10, ← hf] at h
        exact absurd hf3 (not_le.mpr h)
      · exact absurd hf3 (not_le.mpr (a5 f (by omega) hf2))
  · have hfit := fitLabel_fit g pathLen title sub desc h
    constructor
    · rintro (h1 | h1)
      · exact absurd hfit.1 h1
      · rw [hfit.2] at h1
        exact absurd h1 (lt_irrefl 0)
    · intro _
      exact hfit

/-- C10: whenever label fitting truncates a title, the label is a prefix of the
full title followed by one ellipsis code unit and that prefix has at least three
code units, for every title and every measurement function; the truncation loop
runs at most `length(title) - 3` iterations. -/
theorem truncated_label_shape (g : Option (ℕ → JSString → ℚ)) (pathLen : ℚ)
    (title sub desc : JSString) :
    ((fitLabel g pathLen (itemOfCard title sub desc)).textContent ≠ title ∨
        0 < (fitLabel g pathLen (itemOfCard title sub desc)).iterations →
      ∃ pre : JSString, pre <+: title ∧ 3 ≤ pre.length ∧
        (fitLabel g pathLen (itemOfCard title sub desc)).textContent = pre ++ [ellipsis]) ∧
    (fitLabel g pathLen (itemOfCard title sub desc)).iterations ≤ title.length - 3 := by
  by_cases h : pathLen * (6 / 10)
      < (shrinkFont g title (pathLen * (6 / 10)) 16 (measureOr g 16 title 0)).2
  · rw [fitLabel_overflow g pathLen title sub desc h]
    by_cases h3 : 3 < title.length
    · obtain ⟨pre, p1, p2, p3, p4, p5⟩ := truncateLoop_spec g
        (shrinkFont g title (pathLen * (6 / 10)) 16 (measureOr g 16 title 0)).1
        (pathLen * (6 / 10)) title.length title title
        (shrinkFont g title (pathLen * (6 / 10)) 16 (measureOr g 16 title 0)).2 0 rfl h3
      constructor
      · intro _
        exact ⟨pre, p1, p2, p4⟩
      · show (truncateLoop _ _ _ _ _ _ _).iterations ≤ _
        rw [p5]
        omega
    · rw [truncateLoop_short _ _ _ _ _ _ _ h3]
      constructor
      · rintro (h1 | h1)
        · exact absurd rfl h1
        · exact absurd h1 (lt_irrefl 0)
      · exact Nat.zero_le _
  · have hfit := fitLabel_fit g pathLen title sub desc h
    constructor
    · rintro (h1 | h1)
      · exact absurd hfit.1 h1
      · rw [hfit.2] at h1
        exact absurd h1 (lt_irrefl 0)
    · rw [hfit.2]
      exact Nat.zero_le _

theorem fitLabel_long_example :
    fitLabel linearMeasure 100 (itemOfCard [65, 66, 67, 68, 69, 70, 71, 72] [] [])
      = { fontPx := 10, textContent := [65, 66, 67, 68, 69, ellipsis], iterations := 3 } := by
  simp [fitLabel, itemOfCard, linearMeasure, measureOr, shrinkFont, truncateLoop]
  norm_num


theorem fitLabel_never_example :
    fitLabel neverFits 100 (itemOfCard [65, 66, 67, 68, 69] [] [])
      = { fontPx := 10, textContent := [65, 66, 67, ellipsis], iterations := 2 } := by
  simp [fitLabel, itemOfCard, neverFits, measureOr, shrinkFont, truncateLoop]
  norm_num

/-- C9 at two concrete titles under a measurement of `fontPx` per code unit and a
budget of 60: eight units overflow at 10px and are truncated, five units fit at
12px and are kept. -/
theorem truncation_only_at_floor_witness :
    ((fitLabel linearMeasure 100 (itemOfCard [65, 66, 67, 68, 69, 70, 71, 72] [] [])).fontPx = 10 ∧
      (100 : ℚ) * (6 / 10) < measureOr linearMeasure 10 [65, 66, 67, 68, 69, 70, 71, 72] 0) ∧
    ((fitLabel linearMeasure 100 (itemOfCard [65, 66, 67, 68, 69] [] [])).textContent
        = [65, 66, 67, 68, 69] ∧
      (fitLabel linearMeasure 100 (itemOfCard [65, 66, 67, 68, 69] [] [])).iterations = 0) :=
  ⟨(truncation_only_at_floor linearMeasure 100 [65, 66, 67, 68, 69, 70, 71, 72] [] []).1
      (Or.inr (by rw [fitLabel_long_example]; decide)),
    (truncation_only_at_floor linearMeasure 100 [65, 66, 67, 68, 69] [] []).2
      ⟨12, by decide, by decide, by norm_num [measureOr, linearMeasure]⟩⟩

/-- C10 at a concrete title of five code units under a measurement that never fits. -/
theorem truncated_label_shape_witness :
    ∃ pre : JSString, pre <+: [65, 66, 67, 68, 69] ∧ 3 ≤ pre.length ∧
      (fitLabel neverFits 100 (itemOfCard [65, 66, 67, 68, 69] [] [])).textContent
        = pre ++ [ellipsis] :=
  (truncated_label_shape neverFits 100 [65, 66, 67, 68, 69] [] []).1
    (Or.inr (by rw [fitLabel_never_example]; decide))

/-! ## Range of `shortestAngle` -/

/-- The result of `shortestAngle` differs from its argument by a whole number of turns. -/
theorem shortestAngle_sub_turns (a : ℚ) :
    shortestAngle a = a - (jsTrunc ((a + PI) / (PI * 2)) : ℚ) * (PI * 2) := by
  unfold shortestAngle jsRem
  ring

/-- From `-PI` upward the result lies in `[-PI, PI)`. -/
theorem shortestAngle_range_of_ge (a : ℚ) (h : -PI ≤ a) :
    -PI ≤ shortestAngle a ∧ shortestAngle a < PI := by
  have hb : 0 < PI * 2 := by nlinarith [PI_pos]
  have hx : 0 ≤ (a + PI) / (PI * 2) := div_nonneg (by linarith) (le_of_lt hb)
  have hq : PI * 2 * ((a + PI) / (PI * 2)) = a + PI := by field_simp
  have h1 : ((⌊(a + PI) / (PI * 2)⌋ : ℤ) : ℚ) ≤ (a + PI) / (PI * 2) := Int.floor_le _
  have h2 : (a + PI) / (PI * 2) < ((⌊(a + PI) / (PI * 2)⌋ : ℤ) : ℚ) + 1 := Int.lt_floor_add_one _
  unfold shortestAngle jsRem jsTrunc
  rw [if_pos hx]
  constructor <;> nlinarith

/-- Below `-PI` the result never exceeds `-PI`: the remainder keeps the sign of the dividend. -/
theorem shortestAngle_le_of_lt (a : ℚ) (h : a < -PI) : shortestAngle a ≤ -PI := by
  have hb : 0 < PI * 2 := by nlinarith [PI_pos]
  have hx : (a + PI) / (PI * 2) < 0 := div_neg_of_neg_of_pos (by linarith) hb
  have hq : PI * 2 * ((a + PI) / (PI * 2)) = a + PI := by field_simp
  have h1 : (a + PI) / (PI * 2) ≤ ((⌈(a + PI) / (PI * 2)⌉ : ℤ) : ℚ) := Int.le_ceil _
  unfold shortestAngle jsRem jsTrunc
  rw [if_neg (not_le.mpr hx)]
  nlinarith

/-- C11 fails on the code: at `a = -3π/2`, and at `a = 7π/2 - 16` (the difference
`rotationTargetOffset - angleOffset` after 40 s of auto-rotation and a click on item
0 of 2), the function `shortestAngle` returns its argument unchanged, a value below
`-π`, although its comment promises a result in `[-π, π]`. -/
theorem shortestAngle_below_range :
    shortestAngle (-(3 / 2) * PI) = -(3 / 2) * PI ∧ -(3 / 2) * PI < -PI ∧
    shortestAngle (7 / 2 * PI - 16) = 7 / 2 * PI - 16 ∧ 7 / 2 * PI - 16 < -PI := by
  refine ⟨?_, ?_, shortestAngle_late, ?_⟩
  · rw [shortestAngle_mul_PI, jsTrunc_of_neg 0 (by norm_num) (by norm_num) (by norm_num)]
    norm_num
  · nlinarith [PI_pos]
  · norm_num [PI]

/-! ## Arrival and pause -/

/-- A frame that ends a rotation started within reach of the target, sets the
pause to fifteen seconds and selects the rotated-to item. -/
theorem animate_end_of_rotation (s : Orbit) (ts : ℚ) (i : ℕ)
    (hr : s.rotatingToIndex = some i) (hend : (animate s ts).rotatingToIndex = none) :
    |rotationDelta s| ≤ max rotationTolerance (rotationToSpeed * frameDt s ts) ∧
    (animate s ts).selectedIndex = some i ∧
    (animate s ts).angleOffset = s.rotationTargetOffset.getD 0 ∧
    (animate s ts).pauseUntil = some (ts + 15000) := by
  by_cases hd : |rotationDelta s| ≤ max rotationTolerance (rotationToSpeed * frameDt s ts)
  · have hd1 := hd
    unfold rotationDelta at hd1
    refine ⟨hd, ?_, ?_, ?_⟩ <;> simp [animate, rotationDelta, hr, hd1]
  · exfalso
    have : (animate s ts).rotatingToIndex = some i := by
      unfold rotationDelta at hd
      simp [animate, rotationDelta, hr, hd]
    rw [this] at hend
    exact absurd hend (by simp)

/-- Frames inside the pause leave the angle, the selection and the deadline alone. -/
theorem runFrames_paused (later : List ℚ) :
    ∀ (u : Orbit) (p : ℚ), u.rotatingToIndex = none → u.pauseUntil = some p →
      (∀ x ∈ later, x < p) →
      (runFrames u later).angleOffset = u.angleOffset ∧
      (runFrames u later).selectedIndex = u.selectedIndex ∧
      (runFrames u later).pauseUntil = u.pauseUntil := by
  induction later with
  | nil => intro u p _ _ _; exact ⟨rfl, rfl, rfl⟩
  | cons x xs ih =>
    intro u p hr hp hl
    have hx : x < p := hl x (List.mem_cons_self x xs)
    have hstep := animate_paused u x p hr hp hx
    have h := ih (animate u x) p (by rw [hstep]; exact hr) (by rw [hstep]; exact hp)
      (fun y hy => hl y (List.mem_cons_of_mem x hy))
    have e : runFrames u (x :: xs) = runFrames (animate u x) xs := rfl
    rw [e, h.1, h.2.1, h.2.2, hstep]
    exact ⟨rfl, rfl, rfl⟩


/-- C12 as stated fails: after a click on item 0 the frame `11000`, ten seconds
after the previous one, ends the rotation (it sets `selectedIndex` and snaps
`angleOffset` to the target `7π/2`) although the angular distance at its start is
`π/2`, far above `rotationTolerance`. -/
theorem arrival_beyond_tolerance :
    run (initOrbit twoNodes) [Event.frame 1000, Event.click 0]
      = orbitState 0 (some 1000) none (some 0) (some (7 / 2 * PI)) none twoNodes ∧
    0 ≤ frameDt (orbitState 0 (some 1000) none (some 0) (some (7 / 2 * PI)) none twoNodes) 11000 ∧
    (animate (orbitState 0 (some 1000) none (some 0) (some (7 / 2 * PI)) none twoNodes)
      11000).selectedIndex = some 0 ∧
    (animate (orbitState 0 (some 1000) none (some 0) (some (7 / 2 * PI)) none twoNodes)
      11000).angleOffset = 7 / 2 * PI ∧
    |rotationDelta (orbitState 0 (some 1000) none (some 0) (some (7 / 2 * PI)) none twoNodes)|
      = 1 / 2 * PI ∧
    rotationTolerance < 1 / 2 * PI := by
  refine ⟨?_, ?_, ?_, ?_, ?_, ?_⟩
  · simp only [run, List.foldl, step]
    rw [first_frame, first_click]
  · norm_num [frameDt, orbitState]
  · rw [first_arrival]; rfl
  · rw [first_arrival]; rfl
  · simp only [rotationDelta, orbitState, Option.getD_some, shortestAngle_seven_halves]
    rw [abs_of_neg (by nlinarith [PI_pos])]
    ring
  · norm_num [rotationTolerance, PI]

/-- C12, amended: a frame of `animate` that starts with `rotatingToIndex` set and
ends the rotation (it selects the item and snaps `angleOffset` to the target) starts
at an angular distance of at most `max(rotationTolerance, rotationToSpeed * dt)`
from the target; the frame selects `rotatingToIndex` and snaps to the target. -/
theorem arrival_within_tolerance_or_step (s : Orbit) (ts : ℚ)
    (hr : s.rotatingToIndex ≠ none) (hend : (animate s ts).rotatingToIndex = none) :
    |rotationDelta s| ≤ max rotationTolerance (rotationToSpeed * frameDt s ts) ∧
    (animate s ts).selectedIndex = s.rotatingToIndex ∧
    (animate s ts).angleOffset = s.rotationTargetOffset.getD 0 := by
  obtain ⟨i, hi⟩ := Option.ne_none_iff_exists'.mp hr
  obtain ⟨h1, h2, h3, _⟩ := animate_end_of_rotation s ts i hi hend
  exact ⟨h1, by rw [h2, hi], h3⟩

/-- C12 amended, at the frame that ends a rotation started at `-1/25`. -/
theorem arrival_within_tolerance_or_step_witness :
    |rotationDelta (orbitState (-(1 / 25)) (some 1016) none (some 0) (some (7 / 2 * PI)) none
        twoNodes)|
      ≤ max rotationTolerance (rotationToSpeed
          * frameDt (orbitState (-(1 / 25)) (some 1016) none (some 0) (some (7 / 2 * PI)) none
              twoNodes) 11000) ∧
    (animate (orbitState (-(1 / 25)) (some 1016) none (some 0) (some (7 / 2 * PI)) none twoNodes)
      11000).selectedIndex = some 0 ∧
    (animate (orbitState (-(1 / 25)) (some 1016) none (some 0) (some (7 / 2 * PI)) none twoNodes)
      11000).angleOffset = (some (7 / 2 * PI)).getD 0 :=
  arrival_within_tolerance_or_step
    (orbitState (-(1 / 25)) (some 1016) none (some 0) (some (7 / 2 * PI)) none twoNodes) 11000
    (by simp [orbitState]) (by rw [late_arrival]; rfl)

/-- C13: the frame with timestamp `ts` that completes a rotation sets
`pauseUntil = ts + 15000`, and after any later frames with timestamps strictly below
`ts + 15000` and no click in between, `angleOffset`, `selectedIndex` and
`pauseUntil` are what that frame left. -/
theorem pause_suspends_rotation (s : Orbit) (ts : ℚ)
    (hr : s.rotatingToIndex ≠ none) (hend : (animate s ts).rotatingToIndex = none)
    (later : List ℚ) (hl : ∀ x ∈ later, x < ts + 15000) :
    (animate s ts).pauseUntil = some (ts + 15000) ∧
    (runFrames (animate s ts) later).angleOffset = (animate s ts).angleOffset ∧
    (runFrames (animate s ts) later).selectedIndex = (animate s ts).selectedIndex ∧
    (runFrames (animate s ts) later).pauseUntil = some (ts + 15000) := by
  obtain ⟨i, hi⟩ := Option.ne_none_iff_exists'.mp hr
  obtain ⟨_, _, _, hp⟩ := animate_end_of_rotation s ts i hi hend
  obtain ⟨h1, h2, h3⟩ := runFrames_paused later (animate s ts) (ts + 15000) hend hp hl
  exact ⟨hp, h1, h2, by rw [h3, hp]⟩

/-- C13 at a concrete history: arrival at `11000`, then frames at `11016`, `20000`
and `25999`. -/
theorem pause_suspends_rotation_witness :
    (animate (orbitState 0 (some 1000) none (some 0) (some (7 / 2 * PI)) none twoNodes)
      11000).pauseUntil = some (11000 + 15000) ∧
    (runFrames (animate (orbitState 0 (some 1000) none (some 0) (some (7 / 2 * PI)) none twoNodes)
      11000) [11016, 20000, 25999]).angleOffset
      = (animate (orbitState 0 (some 1000) none (some 0) (some (7 / 2 * PI)) none twoNodes)
          11000).angleOffset ∧
    (runFrames (animate (orbitState 0 (some 1000) none (some 0) (some (7 / 2 * PI)) none twoNodes)
      11000) [11016, 20000, 25999]).selectedIndex
      = (animate (orbitState 0 (some 1000) none (some 0) (some (7 / 2 * PI)) none twoNodes)
          11000).selectedIndex ∧
    (runFrames (animate (orbitState 0 (some 1000) none (some 0) (some (7 / 2 * PI)) none twoNodes)
      11000) [11016, 20000, 25999]).pauseUntil = some (11000 + 15000) :=
  pause_suspends_rotation
    (orbitState 0 (some 1000) none (some 0) (some (7 / 2 * PI)) none twoNodes) 11000
    (by simp [orbitState]) (by rw [first_arrival]; rfl) [11016, 20000, 25999]
    (by
      intro x hx
      simp only [List.mem_cons, List.mem_singleton, List.not_mem_nil, or_false] at hx
      rcases hx with rfl | rfl | rfl <;> norm_num)

end GalleryPopup
